import Mathlib

/-!
Verification of the HTTP acquisition layer of the Aumiao repository
(`rust/src/utils/acquire.rs`): the `send_request` retry loop, the cookie
and identity-switch mutations of the shared header map, the pagination
planner and the page-stream aggregation of `fetch_data`, and the
body-excerpt truncation of `log_request`.

The Rust code is embedded shallowly: `serde_json::Value` becomes `Json`,
`AcquireError` keeps its constructors, `reqwest` header maps become
association lists with case-preserving names (the code only ever inserts
fixed lowercase names or the constant names `"Cookie"` / `AUTHORIZATION`),
network sends become an oracle `Nat → AttemptOutcome` giving the outcome
of each attempt, and the async stream combinators (`map`, `take_while`,
`flat_map`, `take`) become their list counterparts.
-/

namespace Aumiao

/-- Model of `serde_json::Value`, with numbers restricted to the integers
(`as_u64` only succeeds on non-negative integral numbers, which is all the
acquisition layer reads). Objects are ordered key/value lists. -/
inductive Json where
  | null
  | bool (b : Bool)
  | num (n : Int)
  | str (s : String)
  | arr (xs : List Json)
  | obj (fields : List (String × Json))

/-- Model of `AcquireError` from `acquire.rs`. `requestFailed` keeps the HTTP status
and body text that the code formats into its message string. -/
inductive AcquireError where
  | http (msg : String)
  | io (msg : String)
  | url (msg : String)
  | json (msg : String)
  | invalidCookie
  | requestFailed (status : Nat) (body : String)
  | unknown (msg : String)
deriving DecidableEq, Repr

/-- Key lookup in an object's field list: the first matching field. -/
def lookupField : List (String × Json) → String → Option Json
  | [], _ => none
  | (k, v) :: rest, key => if k = key then some v else lookupField rest key

/-- Model of `Value::get(key)` on an object: lookup of the first matching field;
`None` on every non-object value. -/
def Json.get : Json → String → Option Json
  | .obj fields, key => lookupField fields key
  | _, _ => none

/-- Model of `Value::as_u64`: succeeds exactly on non-negative integral numbers. -/
def Json.asU64 : Json → Option Nat
  | .num n => if 0 ≤ n then some n.toNat else none
  | _ => none

/-- Model of `Value::as_array().unwrap_or(&vec![])`: the element list of an array,
and the empty list on every other value. -/
def Json.asArrayD : Json → List Json
  | .arr xs => xs
  | _ => []

/-- Model of `page_params[&key] = v` on an object's field list: overwrite the first
occurrence of `key`, or append the new field. -/
def setField : List (String × Json) → String → Json → List (String × Json)
  | [], key, v => [(key, v)]
  | (k, w) :: rest, key, v =>
      if k = key then (key, v) :: rest else (k, w) :: setField rest key v

/-- Model of `path.split('.')` over the path's characters: splits at every dot and
keeps empty segments, like Rust's `str::split`. -/
def splitDot : List Char → List (List Char)
  | [] => [[]]
  | c :: rest =>
      match splitDot rest with
      | [] => [[c]]
      | s :: ss => if c = '.' then [] :: s :: ss else (c :: s) :: ss

/-- Model of `tool::DataProcessor::get_nested_value`: walk a dotted path through
nested objects; `None` as soon as a segment is missing or the current
value is not an object. -/
def getNestedValue (data : Json) (path : String) : Option Json :=
  go data ((splitDot path.toList).map fun cs => String.mk cs)
where
  go : Json → List String → Option Json
    | current, [] => some current
    | current, key :: rest =>
        match current with
        | .obj fields =>
            match lookupField fields key with
            | some v => go v rest
            | none => none
        | _ => none

/-! ## send_request: the retry loop (acquire.rs lines 165-193) -/

/-- The constant `MAX_RETRIES` in `acquire.rs`. -/
def MAX_RETRIES : Nat := 3

/-- The constant `BACKOFF_FACTOR` in `acquire.rs` (0.3), as an exact rational. -/
def BACKOFF_FACTOR : ℚ := 3 / 10

/-- The delay `BACKOFF_FACTOR * 2^attempt` slept after a transport failure
on attempt `i`. `2^i` is exact in binary floating point, so the rational
value faithfully represents the `f64` computation. -/
def backoffDelay (i : Nat) : ℚ := BACKOFF_FACTOR * 2 ^ i

/-- The outcome the network produces for one attempt of
`request_builder.send().await`: either a transport error (`reqwest::Error`)
or a received response with a status code and body text. -/
inductive AttemptOutcome where
  | transport (msg : String)
  | response (status : Nat) (body : String)
deriving DecidableEq, Repr

/-- Model of `StatusCode::is_success`: 2xx, i.e. `200..=299`. -/
def statusIsSuccess (status : Nat) : Bool := 200 ≤ status && status ≤ 299

/-- Whether an attempt outcome is a transport failure. -/
def AttemptOutcome.isTransport : AttemptOutcome → Bool
  | .transport _ => true
  | .response _ _ => false

/-- Whether an attempt outcome is a success (a 2xx response). -/
def AttemptOutcome.isSuccess : AttemptOutcome → Bool
  | .transport _ => false
  | .response s _ => statusIsSuccess s

/-- The `last_error` value the loop records for a failed attempt:
`AcquireError::Http` for a transport failure, `RequestFailed` with status
and body for a non-success response. -/
def AttemptOutcome.toError : AttemptOutcome → AcquireError
  | .transport m => .http m
  | .response s b => .requestFailed s b

/-- The result of `send_request` as observed through the model:
the returned value, the sequence of backoff sleeps performed, and the
number of attempts made. -/
structure SendResult where
  result : Except AcquireError (Nat × String)
  sleeps : List ℚ
  attempts : Nat

/-- The retry loop `for attempt in 0..retries` of `send_request`:
a success response returns immediately; a non-success response records
`RequestFailed` and continues with no sleep; a transport failure records
`Http` and sleeps `BACKOFF_FACTOR * 2^attempt` before continuing; after
the loop, the last recorded error (or `Unknown("Maximum retries
exceeded")` when no attempt was made) is returned. -/
def retryLoop (outcomes : Nat → AttemptOutcome) :
    Nat → Nat → Option AcquireError → List ℚ → SendResult
  | 0, attempt, lastError, sleeps =>
      ⟨.error (lastError.getD (.unknown "Maximum retries exceeded")), sleeps, attempt⟩
  | remaining + 1, attempt, lastError, sleeps =>
      match outcomes attempt with
      | .response s b =>
          if statusIsSuccess s then ⟨.ok (s, b), sleeps, attempt + 1⟩
          else retryLoop outcomes remaining (attempt + 1) (some (.requestFailed s b)) sleeps
      | .transport m =>
          retryLoop outcomes remaining (attempt + 1) (some (.http m))
            (sleeps ++ [backoffDelay attempt])

/-- The function `send_request` restricted to its retry behaviour: the effective ceiling
is the per-call override when given, else `MAX_RETRIES`. -/
def sendRequest (outcomes : Nat → AttemptOutcome) (retries : Option Nat) : SendResult :=
  retryLoop outcomes (retries.getD MAX_RETRIES) 0 none []

/-- A result that carries a recorded per-attempt failure: the transport
kind (`Http`) or the HTTP-status kind (`RequestFailed`). -/
def SendResult.carriesRecordedFailure (r : SendResult) : Bool :=
  match r.result with
  | .error (.http _) => true
  | .error (.requestFailed _ _) => true
  | _ => false

/-! ### Lemmas about the retry loop -/

lemma retryLoop_attempts_le (outcomes : Nat → AttemptOutcome) :
    ∀ (remaining attempt : Nat) (lastError : Option AcquireError) (sleeps : List ℚ),
      (retryLoop outcomes remaining attempt lastError sleeps).attempts ≤ attempt + remaining := by
  intro remaining
  induction remaining with
  | zero => intro attempt lastError sleeps; simp [retryLoop]
  | succ n ih =>
      intro attempt lastError sleeps
      cases h : outcomes attempt with
      | response s b =>
          by_cases hs : statusIsSuccess s
          · simp only [retryLoop, h, hs, if_true]
            show attempt + 1 ≤ attempt + (n + 1)
            omega
          · simp only [retryLoop, h, hs, Bool.false_eq_true, if_false]
            have := ih (attempt + 1) (some (.requestFailed s b)) sleeps
            omega
      | transport m =>
          simp only [retryLoop, h]
          have := ih (attempt + 1) (some (.http m)) (sleeps ++ [backoffDelay attempt])
          omega

lemma retryLoop_exhausted (outcomes : Nat → AttemptOutcome) :
    ∀ (remaining attempt : Nat) (lastError : Option AcquireError) (sleeps : List ℚ),
      (∀ i, attempt ≤ i → i < attempt + remaining → (outcomes i).isSuccess = false) →
      retryLoop outcomes remaining attempt lastError sleeps =
        ⟨.error (if remaining = 0 then lastError.getD (.unknown "Maximum retries exceeded")
                 else (outcomes (attempt + remaining - 1)).toError),
         sleeps ++ ((List.range' attempt remaining).filter
            fun i => (outcomes i).isTransport).map backoffDelay,
         attempt + remaining⟩ := by
  intro remaining
  induction remaining with
  | zero => intro attempt lastError sleeps _; simp [retryLoop]
  | succ n ih =>
      intro attempt lastError sleeps hfail
      have hcur : (outcomes attempt).isSuccess = false := hfail attempt le_rfl (by omega)
      cases h : outcomes attempt with
      | response s b =>
          have hs : statusIsSuccess s = false := by
            have := hcur; rw [h] at this; simpa [AttemptOutcome.isSuccess] using this
          simp only [retryLoop, h, hs, Bool.false_eq_true, if_false]
          rw [ih (attempt + 1) (some (.requestFailed s b)) sleeps
            (fun i h1 h2 => hfail i (by omega) (by omega))]
          rcases Nat.eq_zero_or_pos n with hn | hn
          · subst hn
            simp [List.range'_succ, AttemptOutcome.isTransport, h,
              AttemptOutcome.toError]
          · have hne : n ≠ 0 := by omega
            have harith : attempt + 1 + n - 1 = attempt + (n + 1) - 1 := by omega
            have harith2 : attempt + 1 + n = attempt + (n + 1) := by omega
            simp [hne, harith, harith2, List.range'_succ, h, AttemptOutcome.isTransport]
      | transport m =>
          simp only [retryLoop, h]
          rw [ih (attempt + 1) (some (.http m)) (sleeps ++ [backoffDelay attempt])
            (fun i h1 h2 => hfail i (by omega) (by omega))]
          rcases Nat.eq_zero_or_pos n with hn | hn
          · subst hn
            simp [List.range'_succ, AttemptOutcome.isTransport, h, AttemptOutcome.toError]
          · have hne : n ≠ 0 := by omega
            have harith : attempt + 1 + n - 1 = attempt + (n + 1) - 1 := by omega
            have harith2 : attempt + 1 + n = attempt + (n + 1) := by omega
            simp [hne, harith, harith2, List.range'_succ, h, AttemptOutcome.isTransport]

lemma retryLoop_first_success (outcomes : Nat → AttemptOutcome) :
    ∀ (remaining attempt : Nat) (lastError : Option AcquireError) (sleeps : List ℚ)
      (j : Nat) (s : Nat) (b : String),
      attempt ≤ j → j < attempt + remaining →
      (∀ i, attempt ≤ i → i < j → (outcomes i).isSuccess = false) →
      outcomes j = .response s b → statusIsSuccess s = true →
      retryLoop outcomes remaining attempt lastError sleeps =
        ⟨.ok (s, b),
         sleeps ++ ((List.range' attempt (j - attempt)).filter
            fun i => (outcomes i).isTransport).map backoffDelay,
         j + 1⟩ := by
  intro remaining
  induction remaining with
  | zero => intro attempt _ _ j _ _ h1 h2; omega
  | succ n ih =>
      intro attempt lastError sleeps j s b hle hlt hbefore hj hs
      rcases Nat.eq_or_lt_of_le hle with rfl | hgt
      · simp [retryLoop, hj, hs]
      · have hcur : (outcomes attempt).isSuccess = false := hbefore attempt le_rfl hgt
        cases h : outcomes attempt with
        | response s' b' =>
            have hs' : statusIsSuccess s' = false := by
              have := hcur; rw [h] at this; simpa [AttemptOutcome.isSuccess] using this
            simp only [retryLoop, h, hs', Bool.false_eq_true, if_false]
            rw [ih (attempt + 1) (some (.requestFailed s' b')) sleeps j s b
              (by omega) (by omega) (fun i h1 h2 => hbefore i (by omega) h2) hj hs]
            have harith : j - attempt = (j - (attempt + 1)) + 1 := by omega
            rw [harith, List.range'_succ]
            simp [h, AttemptOutcome.isTransport]
        | transport m =>
            simp only [retryLoop, h]
            rw [ih (attempt + 1) (some (.http m)) (sleeps ++ [backoffDelay attempt]) j s b
              (by omega) (by omega) (fun i h1 h2 => hbefore i (by omega) h2) hj hs]
            have harith : j - attempt = (j - (attempt + 1)) + 1 := by omega
            rw [harith, List.range'_succ]
            simp [h, AttemptOutcome.isTransport]

/-- The attempt schedule used to instantiate the C1 theorems: two
transport failures followed by a 200 response. -/
def c1Outcomes : Nat → AttemptOutcome := fun i =>
  if i < 2 then .transport "connection refused" else .response 200 "ok"

/-- C1: `send_request` makes at most `ceiling` attempts
(`ceiling` = the per-call override if given, else `MAX_RETRIES` = 3);
the first 2xx response is returned immediately after exactly `j + 1`
attempts with the sleeps being exactly `BACKOFF_FACTOR * 2^i` for each
transport-failing attempt `i` before it (non-success responses add no
sleep); and when no attempt among the first `ceiling` succeeds and
`ceiling ≥ 1`, the call makes exactly `ceiling` attempts and fails with
the last recorded failure — `Http` after a transport failure,
`RequestFailed` with status and body after a non-success response.
(Amended from the original claim: the final clause requires `ceiling ≥ 1`;
with a per-call retry override of 0 the call fails with
`Unknown "Maximum retries exceeded"` instead, see the counterexample.) -/
theorem c1_sendRequest_retry (outcomes : Nat → AttemptOutcome) (retries : Option Nat) :
    (sendRequest outcomes retries).attempts ≤ retries.getD MAX_RETRIES
    ∧ (∀ j s b, j < retries.getD MAX_RETRIES →
        (∀ i, i < j → (outcomes i).isSuccess = false) →
        outcomes j = .response s b → statusIsSuccess s = true →
        sendRequest outcomes retries =
          ⟨.ok (s, b),
           ((List.range j).filter fun i => (outcomes i).isTransport).map backoffDelay,
           j + 1⟩)
    ∧ ((∀ i, i < retries.getD MAX_RETRIES → (outcomes i).isSuccess = false) →
        1 ≤ retries.getD MAX_RETRIES →
        sendRequest outcomes retries =
          ⟨.error ((outcomes (retries.getD MAX_RETRIES - 1)).toError),
           ((List.range (retries.getD MAX_RETRIES)).filter
              fun i => (outcomes i).isTransport).map backoffDelay,
           retries.getD MAX_RETRIES⟩) := by
  refine ⟨?_, ?_, ?_⟩
  · simpa using retryLoop_attempts_le outcomes (retries.getD MAX_RETRIES) 0 none []
  · intro j s b hj hbefore hresp hs
    have := retryLoop_first_success outcomes (retries.getD MAX_RETRIES) 0 none [] j s b
      (Nat.zero_le j) (by omega) (fun i _ h2 => hbefore i h2) hresp hs
    simpa [sendRequest, List.range_eq_range'] using this
  · intro hfail hpos
    have := retryLoop_exhausted outcomes (retries.getD MAX_RETRIES) 0 none []
      (fun i _ h2 => hfail i (by omega))
    have hne : retries.getD MAX_RETRIES ≠ 0 := by omega
    simpa [sendRequest, hne, List.range_eq_range'] using this

/-- C1 counterexample: with a per-call retry override of 0 every attempt
is (vacuously) exhausted, yet the resulting error is
`Unknown "Maximum retries exceeded"` — it does not carry a recorded
failure of the transport or HTTP-status kind as the claim states. -/
theorem c1_counterexample :
    (sendRequest (fun _ => .transport "connection refused") (some 0)).result
        = .error (.unknown "Maximum retries exceeded")
      ∧ (sendRequest (fun _ => .transport "connection refused")
          (some 0)).carriesRecordedFailure = false := ⟨rfl, rfl⟩

/-- C1 witness: the amended theorem instantiated on a schedule of two
transport failures followed by a 200 response, with the default ceiling 3:
the response is returned on attempt 3 after sleeping 0.3 s and 0.6 s. -/
theorem c1_witness :
    sendRequest c1Outcomes none =
      ⟨.ok (200, "ok"),
       ((List.range 2).filter fun i => (c1Outcomes i).isTransport).map backoffDelay,
       3⟩ ∧
    ((List.range 2).filter fun i => (c1Outcomes i).isTransport).map backoffDelay
      = [3 / 10, 3 / 5] := by
  constructor
  · exact (c1_sendRequest_retry c1Outcomes none).2.1 2 200 "ok" (by decide)
      (by intro i hi; interval_cases i <;> rfl) rfl rfl
  · show [backoffDelay 0, backoffDelay 1] = [3 / 10, 3 / 5]
    norm_num [backoffDelay, BACKOFF_FACTOR]

/-! ## fetch_data: page decoding and stream aggregation
(acquire.rs lines 270-337) -/

/-- The per-page element stream of `fetch_data` (lines 310-318): the page's
array elements are each decoded (`serde_json::from_value`, an error element
on failure), and the stateful `take_while` with per-page counter
`yielded_count` caps the page at `limit` elements when a global limit is
set. -/
def pageStream {J T : Type} (dec : J → Except AcquireError T) (limit : Option Nat)
    (items : List J) : List (Except AcquireError T) :=
  match limit with
  | some l => (items.map dec).take l
  | none => items.map dec

/-- The outer `stream.take(limit)` of lines 331-335: applied only when a
global limit is set. -/
def applyLimit {T : Type} (limit : Option Nat) (xs : List T) : List T :=
  match limit with
  | some l => xs.take l
  | none => xs

/-- The `flat_map` fan-in of lines 326-329 followed by the outer take:
each page result is either its element stream or a single error element,
flattened in arrival order (`buffer_unordered` makes that order arbitrary,
so it is universally quantified wherever it matters). -/
def fetchStream {J T : Type} (dec : J → Except AcquireError T) (limit : Option Nat)
    (pages : List (Except AcquireError (List J))) : List (Except AcquireError T) :=
  applyLimit limit (pages.flatMap fun pr =>
    match pr with
    | .ok items => pageStream dec limit items
    | .error e => [.error e])

lemma sum_min_ge {l : Nat} : ∀ ns : List Nat, min l ns.sum ≤ (ns.map (min l)).sum := by
  intro ns
  induction ns with
  | nil => simp
  | cons n ns ih => simp only [List.sum_cons, List.map_cons]; omega

/-- C2: with a global limit `l` and pages that all fetched and decoded
successfully, the output sequence of `fetch_data` yields exactly `l`
elements — all of them items — whenever at least `l` items are available
across all pages, regardless of how many pages the plan covers; with fewer
than `l` items available it yields all of them. -/
theorem c2_fetchStream_limit {J T : Type} (dec : J → Except AcquireError T) (l : Nat)
    (pages : List (List J))
    (hdec : ∀ p ∈ pages, ∀ x ∈ p, (dec x).isOk = true) :
    (l ≤ (pages.map List.length).sum →
      (fetchStream dec (some l) (pages.map .ok)).length = l ∧
      ∀ e ∈ fetchStream dec (some l) (pages.map .ok), e.isOk = true)
    ∧ ((pages.map List.length).sum < l →
      fetchStream dec (some l) (pages.map .ok) = (pages.flatMap id).map dec) := by
  have hflat : ((pages.map (Except.ok (ε := AcquireError))).flatMap fun pr =>
      match pr with
      | .ok items => pageStream dec (some l) items
      | .error e => [.error e]) =
      pages.flatMap fun p => (p.map dec).take l := by
    rw [List.flatMap_map]; rfl
  constructor
  · intro hge
    constructor
    · simp only [fetchStream, applyLimit, hflat, List.length_take, List.length_flatMap]
      have h1 := sum_min_ge (l := l) (pages.map List.length)
      have h2 : (List.map (List.length ∘ fun p => (List.map dec p).take l) pages).sum
          = ((pages.map List.length).map (min l)).sum := by
        congr 1
        simp only [List.map_map]
        apply List.map_congr_left
        intro p _
        simp [List.length_take]
      rw [h2]
      omega
    · intro e he
      simp only [fetchStream, applyLimit, hflat] at he
      have he' := List.mem_of_mem_take he
      rw [List.mem_flatMap] at he'
      obtain ⟨p, hp, hep⟩ := he'
      have := List.mem_of_mem_take hep
      rw [List.mem_map] at this
      obtain ⟨x, hx, rfl⟩ := this
      exact hdec p hp x hx
  · intro hlt
    have hplen : ∀ p ∈ pages, p.length ≤ (pages.map List.length).sum := by
      intro p hp
      exact List.single_le_sum (by simp) _ (List.mem_map_of_mem List.length hp)
    have htake : (pages.flatMap fun p => (p.map dec).take l) =
        pages.flatMap fun p => p.map dec := by
      apply List.flatMap_congr
      intro p hp
      apply List.take_of_length_le
      have := hplen p hp
      simp only [List.length_map]
      omega
    simp only [fetchStream, applyLimit, hflat, htake]
    rw [List.take_of_length_le]
    · rw [List.map_flatMap]
      apply List.flatMap_congr
      intro p _
      simp
    · rw [List.length_flatMap]
      have : (List.map (List.length ∘ fun p => List.map dec p) pages).sum
          = (pages.map List.length).sum := by
        congr 1
        apply List.map_congr_left
        intro p _
        simp
      omega

/-- C2 witness: two full pages of five items, limit 7: exactly 7 items come
out, all of them successfully decoded; and with limit 11 over the same 10
items, all 10 come out. -/
theorem c2_witness :
    (fetchStream (fun n : Nat => Except.ok (ε := AcquireError) n) (some 7)
        ([[1, 2, 3, 4, 5], [6, 7, 8, 9, 10]].map .ok)).length = 7
    ∧ fetchStream (fun n : Nat => Except.ok (ε := AcquireError) n) (some 11)
        ([[1, 2, 3, 4, 5], [6, 7, 8, 9, 10]].map .ok)
      = ([[1, 2, 3, 4, 5], [6, 7, 8, 9, 10]].flatMap id).map .ok := by
  constructor
  · exact ((c2_fetchStream_limit (fun n : Nat => Except.ok n) 7
      [[1, 2, 3, 4, 5], [6, 7, 8, 9, 10]] (by intro p _ x _; rfl)).1 (by decide)).1
  · exact (c2_fetchStream_limit (fun n : Nat => Except.ok n) 11
      [[1, 2, 3, 4, 5], [6, 7, 8, 9, 10]] (by intro p _ x _; rfl)).2 (by decide)

/-! ## fetch_data: the pagination planner (acquire.rs lines 236-288) -/

/-- The page count `total_pages = (total_items + items_per_page - 1) / items_per_page`
(line 268, natural-number division). -/
def totalPagesOf (totalItems itemsPerPage : Nat) : Nat :=
  (totalItems + itemsPerPage - 1) / itemsPerPage

/-- The number of items that land on 0-based page `p` of the plan: the item
indices `i < totalItems` lying in the offset window
`[p * itemsPerPage, (p + 1) * itemsPerPage)` of that page. -/
def pageItemCount (totalItems itemsPerPage p : Nat) : Nat :=
  ((List.range totalItems).filter
    fun i => p * itemsPerPage ≤ i && i < (p + 1) * itemsPerPage).length

/-- Page-size resolution (lines 254-262): the `amount_key` entry of the
original request parameters when it is a non-negative integral number,
else the response's `response_amount_key` field, else the default 5. -/
def resolveItemsPerPage (params : List (String × Json)) (initialData : Json)
    (amountKey responseAmountKey : String) : Nat :=
  match (lookupField params amountKey).bind Json.asU64 with
  | some n => n
  | none =>
      match (initialData.get responseAmountKey).bind Json.asU64 with
      | some m => m
      | none => 5

/-- The planning prefix of `fetch_data` (lines 236-268): extract
`total_items` at the dotted `total_key` (missing or non-numeric is fatal),
resolve the page size (a result of 0 is fatal, `usize` excludes negatives),
and compute the page count. Returns `(items_per_page, total_pages)`. -/
def fetchDataPlan (initialData : Json) (params : List (String × Json))
    (totalKey amountKey responseAmountKey : String) : Except AcquireError (Nat × Nat) :=
  match (getNestedValue initialData totalKey).bind Json.asU64 with
  | none => .error (.unknown "Failed to get total items")
  | some totalItems =>
      let ipp := resolveItemsPerPage params initialData amountKey responseAmountKey
      if ipp = 0 then .error (.unknown "Invalid items per page")
      else .ok (ipp, totalPagesOf totalItems ipp)

/-- The per-page parameter construction of lines 272-288: copy the original
parameters and overwrite only the offset key — `page * items_per_page`
under strategy `"offset"`, `page + 1` under strategy `"page"`; any other
strategy name is an unsupported-pagination-method error. -/
def planPage (paginationMethod offsetKey : String) (itemsPerPage : Nat)
    (params : List (String × Json)) (page : Nat) :
    Except AcquireError (List (String × Json)) :=
  if paginationMethod = "offset" then
    .ok (setField params offsetKey (.num (page * itemsPerPage)))
  else if paginationMethod = "page" then
    .ok (setField params offsetKey (.num (page + 1)))
  else
    .error (.unknown "Unsupported pagination method")

/-- One page's contribution to the output stream: on a planning error the
page contributes the single error element produced by
`futures::stream::once` (lines 281-287) — it is not silently skipped;
otherwise whatever the page fetch (`fetch`) contributes. -/
def pageOutput {T : Type} (paginationMethod offsetKey : String) (itemsPerPage : Nat)
    (params : List (String × Json))
    (fetch : List (String × Json) → List (Except AcquireError T))
    (page : Nat) : List (Except AcquireError T) :=
  match planPage paginationMethod offsetKey itemsPerPage params page with
  | .ok pageParams => fetch pageParams
  | .error e => [.error e]

lemma setField_lookup_self (params : List (String × Json)) (key : String) (v : Json) :
    lookupField (setField params key v) key = some v := by
  induction params with
  | nil => simp [setField, lookupField]
  | cons kv rest ih =>
      obtain ⟨k, w⟩ := kv
      by_cases h : k = key
      · simp [setField, h, lookupField]
      · simp [setField, h, lookupField, ih]

lemma setField_lookup_ne (params : List (String × Json)) (key k : String) (v : Json)
    (hk : k ≠ key) : lookupField (setField params key v) k = lookupField params k := by
  induction params with
  | nil => simp [setField, lookupField, Ne.symm hk]
  | cons kv rest ih =>
      obtain ⟨k', w⟩ := kv
      by_cases h : k' = key
      · subst h
        simp [setField, lookupField, Ne.symm hk]
      · simp [setField, h, lookupField, ih]

/-- C3: for positive `total_items` and `items_per_page` the planner's page
count is exactly the ceiling of `total_items / items_per_page`; in
particular 23 items with page size 5 plan as 5 pages, and the offset
window of the 5th (0-based index 4, last) page holds exactly 3 items. -/
theorem c3_totalPages_ceil (totalItems itemsPerPage : Nat)
    (h1 : 0 < totalItems) (h2 : 0 < itemsPerPage) :
    (totalPagesOf totalItems itemsPerPage : ℤ)
        = ⌈(totalItems : ℚ) / (itemsPerPage : ℚ)⌉
      ∧ totalPagesOf 23 5 = 5
      ∧ pageItemCount 23 5 4 = 3 := by
  refine ⟨?_, by decide, by decide⟩
  symm
  rw [Int.ceil_eq_iff]
  have hqr := Nat.div_add_mod (totalItems + itemsPerPage - 1) itemsPerPage
  have hr : (totalItems + itemsPerPage - 1) % itemsPerPage < itemsPerPage :=
    Nat.mod_lt _ h2
  have hub : itemsPerPage * totalPagesOf totalItems itemsPerPage
      < totalItems + itemsPerPage := by
    unfold totalPagesOf
    omega
  have hlb : totalItems ≤ itemsPerPage * totalPagesOf totalItems itemsPerPage := by
    unfold totalPagesOf
    omega
  have hpos : (0 : ℚ) < (itemsPerPage : ℚ) := by exact_mod_cast h2
  have hubq : (itemsPerPage : ℚ) * (totalPagesOf totalItems itemsPerPage : ℚ)
      < (totalItems : ℚ) + itemsPerPage := by exact_mod_cast hub
  have hlbq : (totalItems : ℚ) ≤ (itemsPerPage : ℚ)
      * (totalPagesOf totalItems itemsPerPage : ℚ) := by exact_mod_cast hlb
  constructor
  · rw [lt_div_iff₀ hpos]
    push_cast
    nlinarith
  · rw [div_le_iff₀ hpos]
    push_cast
    nlinarith

/-- C3 witness: the ceiling identity evaluated at 23 items, page size 5. -/
theorem c3_witness :
    (totalPagesOf 23 5 : ℤ) = ⌈(23 : ℚ) / (5 : ℚ)⌉ ∧ pageItemCount 23 5 4 = 3 := by
  have h := c3_totalPages_ceil 23 5 (by decide) (by decide)
  exact ⟨by exact_mod_cast h.1, h.2.2⟩

/-- C4: per 0-based page `p` the parameter set is the original parameters
with only the offset key overwritten — `p * items_per_page` under strategy
`"offset"`, `p + 1` under strategy `"page"`; every other key is untouched;
and under any other strategy name every page contributes exactly one
"Unsupported pagination method" error element to the output (zero items,
never a silent skip). -/
theorem c4_planPage {T : Type} (paginationMethod offsetKey : String) (itemsPerPage : Nat)
    (params : List (String × Json)) (page : Nat)
    (fetch : List (String × Json) → List (Except AcquireError T)) :
    (paginationMethod = "offset" →
      planPage paginationMethod offsetKey itemsPerPage params page
        = .ok (setField params offsetKey (.num (page * itemsPerPage))))
    ∧ (paginationMethod = "page" →
      planPage paginationMethod offsetKey itemsPerPage params page
        = .ok (setField params offsetKey (.num (page + 1))))
    ∧ (∀ v k, k ≠ offsetKey →
        lookupField (setField params offsetKey v) k = lookupField params k)
    ∧ (∀ v, lookupField (setField params offsetKey v) offsetKey = some v)
    ∧ (paginationMethod ≠ "offset" → paginationMethod ≠ "page" →
        pageOutput paginationMethod offsetKey itemsPerPage params fetch page
          = [.error (.unknown "Unsupported pagination method")]) := by
  refine ⟨?_, ?_, ?_, ?_, ?_⟩
  · intro h; simp [planPage, h]
  · intro h; simp [planPage, h]
  · intro v k hk; exact setField_lookup_ne params offsetKey k v hk
  · intro v; exact setField_lookup_self params offsetKey v
  · intro h1 h2; simp [pageOutput, planPage, h1, h2]

/-- C4 witness: with strategy "offset", page 3 of size 5 sets the offset
key to 15; with strategy "page" it sets it to 4; with strategy "cursor"
the page contributes exactly the unsupported-method error element. -/
theorem c4_witness :
    planPage "offset" "offset" 5 [("limit", .num 5)] 3
        = .ok [("limit", .num 5), ("offset", .num 15)]
      ∧ planPage "page" "offset" 5 [("limit", .num 5)] 3
        = .ok [("limit", .num 5), ("offset", .num 4)]
      ∧ pageOutput (T := Nat) "cursor" "offset" 5 [("limit", .num 5)] (fun _ => []) 3
        = [.error (.unknown "Unsupported pagination method")] := by
  refine ⟨?_, ?_, ?_⟩
  · exact (c4_planPage (T := Nat) "offset" "offset" 5 [("limit", .num 5)] 3
      (fun _ => [])).1 rfl
  · exact (c4_planPage (T := Nat) "page" "offset" 5 [("limit", .num 5)] 3
      (fun _ => [])).2.1 rfl
  · exact (c4_planPage (T := Nat) "cursor" "offset" 5 [("limit", .num 5)] 3
      (fun _ => [])).2.2.2.2 (by decide) (by decide)

/-- C5: page size resolution priority — an explicit non-negative integral
value under the amount key in the request parameters wins; else the
response's declared page-size field; else the default 5. A resolved page
size `≤ 0` (as an integer; the `usize` value is never negative, so this
means 0) makes `fetch_data` fail with the "Invalid items per page"
configuration error at planning time, before any page is fetched. -/
theorem c5_pageSize_resolution (params : List (String × Json)) (initialData : Json)
    (totalKey amountKey responseAmountKey : String) :
    (∀ n, (lookupField params amountKey).bind Json.asU64 = some n →
      resolveItemsPerPage params initialData amountKey responseAmountKey = n)
    ∧ ((lookupField params amountKey).bind Json.asU64 = none →
      ∀ m, (initialData.get responseAmountKey).bind Json.asU64 = some m →
      resolveItemsPerPage params initialData amountKey responseAmountKey = m)
    ∧ ((lookupField params amountKey).bind Json.asU64 = none →
      (initialData.get responseAmountKey).bind Json.asU64 = none →
      resolveItemsPerPage params initialData amountKey responseAmountKey = 5)
    ∧ ((resolveItemsPerPage params initialData amountKey responseAmountKey : Int) ≤ 0 →
      (fetchDataPlan initialData params totalKey amountKey responseAmountKey).isOk = false
      ∧ (∀ t, (getNestedValue initialData totalKey).bind Json.asU64 = some t →
          fetchDataPlan initialData params totalKey amountKey responseAmountKey
            = .error (.unknown "Invalid items per page"))) := by
  refine ⟨?_, ?_, ?_, ?_⟩
  · intro n h; simp [resolveItemsPerPage, h]
  · intro h m h2; simp [resolveItemsPerPage, h, h2]
  · intro h h2; simp [resolveItemsPerPage, h, h2]
  · intro hle
    have h0 : resolveItemsPerPage params initialData amountKey responseAmountKey = 0 := by
      omega
    constructor
    · cases htot : (getNestedValue initialData totalKey).bind Json.asU64 with
      | none => simp [fetchDataPlan, htot, Except.isOk, Except.toBool]
      | some t => simp [fetchDataPlan, htot, h0, Except.isOk, Except.toBool]
    · intro t htot
      simp [fetchDataPlan, htot, h0]

/-- C5 witness: an explicit `limit: 10` in the parameters beats a declared
`limit: 20` in the response; with no explicit value the response's 20 is
used; with neither the default is 5; and an explicit `limit: 0` makes the
plan fail with "Invalid items per page" even though the response declares
a total of 23. -/
theorem c5_witness :
    resolveItemsPerPage [("limit", .num 10)]
        (.obj [("total", .num 23), ("limit", .num 20)]) "limit" "limit" = 10
    ∧ resolveItemsPerPage []
        (.obj [("total", .num 23), ("limit", .num 20)]) "limit" "limit" = 20
    ∧ resolveItemsPerPage [] (.obj [("total", .num 23)]) "limit" "limit" = 5
    ∧ fetchDataPlan (.obj [("total", .num 23), ("limit", .num 20)])
        [("limit", .num 0)] "total" "limit" "limit"
        = .error (.unknown "Invalid items per page") := by
  refine ⟨?_, ?_, ?_, ?_⟩
  · exact (c5_pageSize_resolution [("limit", .num 10)]
      (.obj [("total", .num 23), ("limit", .num 20)]) "total" "limit" "limit").1 10 rfl
  · exact (c5_pageSize_resolution []
      (.obj [("total", .num 23), ("limit", .num 20)]) "total" "limit" "limit").2.1 rfl 20 rfl
  · exact (c5_pageSize_resolution [] (.obj [("total", .num 23)])
      "total" "limit" "limit").2.2.1 rfl rfl
  · exact ((c5_pageSize_resolution [("limit", .num 0)]
      (.obj [("total", .num 23), ("limit", .num 20)]) "total" "limit" "limit").2.2.2
      (by decide)).2 23 (by decide)

/-! ## fetch_data: decoding one fetched page (acquire.rs lines 304-318) -/

/-- Decoding one fetched page body: `page_data.get(data_key)` missing is a
whole-page error ("Data key not found"); otherwise the value's array
elements (`as_array().unwrap_or(&vec![])`: the empty list when the value
is not an array) are decoded element-wise into the page's element
stream. -/
def processPage {T : Type} (dataKey : String) (dec : Json → Except AcquireError T)
    (limit : Option Nat) (pageData : Json) :
    Except AcquireError (List (Except AcquireError T)) :=
  match pageData.get dataKey with
  | none => .error (.unknown "Data key not found")
  | some v => .ok (pageStream dec limit v.asArrayD)

/-- C6: within one fetched page whose `data_key` holds an array, the page
succeeds with one output element per array element, and the element at
position `i` is exactly the decode result of the array element at
position `i` — a decode failure on one element becomes an error element
at its position and does not disturb any other position; by contrast a
page body with no `data_key` entry fails as a whole page, not as an empty
page. -/
theorem c6_pageDecode {T : Type} (dataKey : String) (dec : Json → Except AcquireError T)
    (pageData : Json) (xs : List Json)
    (h : pageData.get dataKey = some (.arr xs)) :
    (processPage dataKey dec none pageData = .ok (xs.map dec)
      ∧ ∀ i : Nat, (xs.map dec)[i]? = (xs[i]?).map dec)
    ∧ (∀ pd : Json, pd.get dataKey = none →
        processPage dataKey dec none pd = .error (.unknown "Data key not found")) := by
  refine ⟨⟨?_, ?_⟩, ?_⟩
  · simp [processPage, h, pageStream, Json.asArrayD]
  · intro i; simp [List.getElem?_map]
  · intro pd hpd; simp [processPage, hpd]

/-- The decoder used to instantiate the C6 theorem: decodes integral JSON
numbers, failing on the value 2 (and on every non-number). -/
def c6Dec : Json → Except AcquireError Int
  | .num n => if n = 2 then .error (.json "invalid type") else .ok n
  | _ => .error (.json "invalid type")

/-- C6 witness: on the page `{"items": [1, 2, 3]}` with a decoder failing
on 2, the page yields `[ok 1, error, ok 3]` — the failure sits at
position 1 and positions 0 and 2 still decode; on `{"other": 1}` the page
fails whole with "Data key not found". -/
theorem c6_witness :
    processPage "items" c6Dec none (.obj [("items", .arr [.num 1, .num 2, .num 3])])
        = .ok [.ok 1, .error (.json "invalid type"), .ok 3]
      ∧ processPage "items" c6Dec none (.obj [("other", .num 1)])
        = .error (.unknown "Data key not found") := by
  have h := c6_pageDecode "items" c6Dec
    (.obj [("items", .arr [.num 1, .num 2, .num 3])]) [.num 1, .num 2, .num 3] rfl
  exact ⟨(h.1.1).trans (by rfl), h.2 (.obj [("other", .num 1)]) rfl⟩

/-! ## The shared header map: switch_account and update_cookies
(acquire.rs lines 195-203 and 340-361) -/

/-- The `Token` slots of `CodeMaoClient`. -/
structure Token where
  average : String
  edu : String
  judgement : String
  blank : String
deriving DecidableEq, Repr

/-- The mutable client state touched by `switch_account`: the token slots
and the shared header map. Header names are modelled as the exact strings
the code inserts (`reqwest`'s `HeaderMap` keeps one canonical spelling per
name, and this code only ever writes the fixed names `"Cookie"` and
`AUTHORIZATION`). -/
structure ClientState where
  token : Token
  headers : List (String × String)
deriving DecidableEq, Repr

/-- Model of `http::HeaderValue::from_str` validity: every byte is visible
(`32 ≤ b`, `b ≠ 127`) or horizontal tab; bytes `≥ 128` of multi-byte
UTF-8 characters are all valid, so the check is per character. -/
def isValidHeaderValue (s : String) : Bool :=
  s.toList.all fun c => c == '\t' || (decide (32 ≤ c.toNat) && c.toNat != 127)

/-- Model of `HeaderMap::insert`: replace the value of an existing entry for the
name, or append a new entry. -/
def insertHeader : List (String × String) → String → String → List (String × String)
  | [], name, v => [(name, v)]
  | (n, w) :: rest, name, v =>
      if n = name then (name, v) :: rest else (n, w) :: insertHeader rest name v

/-- Model of `HeaderMap::remove`: drop the entry for the name. -/
def removeHeader (headers : List (String × String)) (name : String) :
    List (String × String) :=
  headers.filter fun nv => nv.1 != name

/-- Header lookup by name. -/
def lookupHeader : List (String × String) → String → Option String
  | [], _ => none
  | (n, v) :: rest, name => if n = name then some v else lookupHeader rest name

/-- The canonical name of `reqwest::header::AUTHORIZATION`. -/
def AUTHORIZATION : String := "authorization"

/-- Model of `switch_account` (lines 340-361), with the mutation order of the
source kept: the token slot for a recognized identity is written first,
then `"Bearer <token>"` is parsed (`InvalidCookie` on failure — with the
token slot already changed) and inserted as the `Authorization` header;
an unrecognized identity returns early with no mutation at all. -/
def switchAccount (st : ClientState) (token identity : String) :
    Except AcquireError Unit × ClientState :=
  let newToken :=
    if identity = "average" then some { st.token with average := token }
    else if identity = "edu" then some { st.token with edu := token }
    else if identity = "judgement" then some { st.token with judgement := token }
    else if identity = "blank" then some { st.token with blank := token }
    else none
  match newToken with
  | none => (.error (.unknown "Invalid identity"), st)
  | some tok =>
      if isValidHeaderValue ("Bearer " ++ token) then
        (.ok (), { token := tok,
                   headers := insertHeader st.headers AUTHORIZATION ("Bearer " ++ token) })
      else (.error .invalidCookie, { st with token := tok })

/-- Model of `update_cookies` (lines 195-203): remove any existing `Cookie` header
first, then parse the new value (`InvalidCookie` on failure) and insert
it. -/
def updateCookies (headers : List (String × String)) (cookies : String) :
    Except AcquireError Unit × List (String × String) :=
  let removed := removeHeader headers "Cookie"
  if isValidHeaderValue cookies then (.ok (), insertHeader removed "Cookie" cookies)
  else (.error .invalidCookie, removed)

/-- C7: switching to an identity name outside
{average, edu, judgement, blank} returns the "Invalid identity" error and
leaves the client state — all four token slots and the entire shared
header map — exactly as it was. -/
theorem c7_switch_unrecognized (st : ClientState) (token identity : String)
    (h : identity ∉ (["average", "edu", "judgement", "blank"] : List String)) :
    switchAccount st token identity = (.error (.unknown "Invalid identity"), st) := by
  simp only [List.mem_cons, List.mem_singleton, not_or] at h
  obtain ⟨h1, h2, h3, h4, -⟩ := h
  simp [switchAccount, h1, h2, h3, h4]

/-- C7 witness: switching to the unrecognized identity "admin" fails and
leaves a populated client state untouched. -/
theorem c7_witness :
    switchAccount ⟨⟨"ta", "te", "tj", "tb"⟩, [(AUTHORIZATION, "Bearer ta")]⟩
        "new-token" "admin"
      = (.error (.unknown "Invalid identity"),
         ⟨⟨"ta", "te", "tj", "tb"⟩, [(AUTHORIZATION, "Bearer ta")]⟩) :=
  c7_switch_unrecognized ⟨⟨"ta", "te", "tj", "tb"⟩, [(AUTHORIZATION, "Bearer ta")]⟩
    "new-token" "admin" (by decide)

lemma lookupHeader_removeHeader (headers : List (String × String)) (name : String) :
    lookupHeader (removeHeader headers name) name = none := by
  induction headers with
  | nil => simp [removeHeader, lookupHeader]
  | cons nv rest ih =>
      obtain ⟨n, v⟩ := nv
      by_cases h : n = name
      · simpa [removeHeader, h] using ih
      · simpa [removeHeader, lookupHeader, h] using ih

/-- C10: `update_cookies` is not atomic on failure — for every cookie
string that is not a valid header value, the call returns the
`InvalidCookie` error with the previous `Cookie` entry already removed,
so after the failed call the header map holds no `Cookie` header. -/
theorem c10_updateCookies_not_atomic (headers : List (String × String)) (cookies : String)
    (h : isValidHeaderValue cookies = false) :
    updateCookies headers cookies = (.error .invalidCookie, removeHeader headers "Cookie")
    ∧ lookupHeader (updateCookies headers cookies).2 "Cookie" = none := by
  refine ⟨by simp [updateCookies, h], ?_⟩
  simp only [updateCookies, h, Bool.false_eq_true, if_false]
  exact lookupHeader_removeHeader headers "Cookie"

/-- C10 witness: updating with the unparsable cookie string
`"bad\ncookie"` (a control character) fails, and the previously present
`Cookie` header is gone. -/
theorem c10_witness :
    updateCookies [("Cookie", "session=1"), ("user-agent", "ua")] "bad\ncookie"
        = (.error .invalidCookie, [("user-agent", "ua")])
      ∧ lookupHeader (updateCookies [("Cookie", "session=1"), ("user-agent", "ua")]
          "bad\ncookie").2 "Cookie" = none := by
  have h := c10_updateCookies_not_atomic [("Cookie", "session=1"), ("user-agent", "ua")]
    "bad\ncookie" (by decide)
  exact ⟨h.1.trans (by rfl), h.2⟩

/-! ## Atomicity of the identity switch (acquire.rs lines 133-137, 351-357)

`send_request` reads the shared header map as `self.headers.lock().clone()`
and `switch_account` writes it under the same `parking_lot::Mutex`. The
interleaving of one switching thread and one reading (request) thread is
modelled as a transition system in which lock acquisition, the header
write, the snapshot clone and lock release are the atomic micro-steps, and
acquisition blocks while the other thread holds the lock. -/

/-- State of the two-thread interleaving: who holds the lock (`some true`
= switcher, `some false` = reader), the shared header map, each thread's
program counter (0 = before acquire, 1 = holding/before its action,
2 = before release, 3 = done), and the reader's cloned snapshot. -/
structure SwitchSys where
  lockOwner : Option Bool
  headers : List (String × String)
  sPC : Nat
  rPC : Nat
  snapshot : Option (List (String × String))
deriving DecidableEq, Repr

/-- One scheduler step: run the next micro-step of the chosen thread
(`true` = switcher, `false` = reader); a thread blocked on the lock, or
already finished, leaves the state unchanged. The switcher's action is the
single `headers.insert(AUTHORIZATION, "Bearer <token>")`; the reader's is
the snapshot clone taken by `send_request`. -/
def sysStep (token : String) (s : SwitchSys) (who : Bool) : SwitchSys :=
  if who then
    if s.sPC = 0 then
      if s.lockOwner = none then { s with lockOwner := some true, sPC := 1 } else s
    else if s.sPC = 1 then
      { s with headers := insertHeader s.headers AUTHORIZATION ("Bearer " ++ token),
               sPC := 2 }
    else if s.sPC = 2 then { s with lockOwner := none, sPC := 3 }
    else s
  else
    if s.rPC = 0 then
      if s.lockOwner = none then { s with lockOwner := some false, rPC := 1 } else s
    else if s.rPC = 1 then { s with snapshot := some s.headers, rPC := 2 }
    else if s.rPC = 2 then { s with lockOwner := none, rPC := 3 }
    else s

/-- Run a whole schedule of scheduler choices. -/
def sysRun (token : String) (init : SwitchSys) (schedule : List Bool) : SwitchSys :=
  schedule.foldl (sysStep token) init

/-- Initial state: header map `m0`, both threads before their lock
acquisition, no snapshot taken. -/
def sysInit (m0 : List (String × String)) : SwitchSys := ⟨none, m0, 0, 0, none⟩

/-- The inductive invariant of the interleaving: program counters only
advance while holding the lock, the header map is the old map before the
switcher's write and the new map after it, and any snapshot taken is one
of the two complete maps. -/
def SwitchInv (token : String) (m0 : List (String × String)) (s : SwitchSys) : Prop :=
  (s.sPC = 1 ∨ s.sPC = 2 → s.lockOwner = some true)
  ∧ (s.rPC = 1 ∨ s.rPC = 2 → s.lockOwner = some false)
  ∧ (s.sPC = 0 ∨ s.sPC = 1 → s.headers = m0)
  ∧ (s.sPC = 2 ∨ s.sPC = 3 → s.headers = insertHeader m0 AUTHORIZATION ("Bearer " ++ token))
  ∧ (s.snapshot = none ∨ s.snapshot = some m0
      ∨ s.snapshot = some (insertHeader m0 AUTHORIZATION ("Bearer " ++ token)))
  ∧ s.sPC ≤ 3 ∧ s.rPC ≤ 3

lemma switchInv_init (token : String) (m0 : List (String × String)) :
    SwitchInv token m0 (sysInit m0) := by
  refine ⟨?_, ?_, ?_, ?_, ?_, ?_, ?_⟩ <;> simp [sysInit]

lemma switchInv_step (token : String) (m0 : List (String × String)) (s : SwitchSys)
    (who : Bool) (hinv : SwitchInv token m0 s) :
    SwitchInv token m0 (sysStep token s who) := by
  obtain ⟨lk, hd, sp, rp, sn⟩ := s
  obtain ⟨hs, hr, hold, hnew, hsnap, hsle, hrle⟩ := hinv
  dsimp only [SwitchInv] at hs hr hold hnew hsnap hsle hrle
  cases who with
  | true =>
      dsimp only [sysStep]
      rw [if_pos rfl]
      by_cases h0 : sp = 0
      · rw [if_pos h0]
        by_cases hfree : lk = none
        · rw [if_pos hfree]
          refine ⟨fun _ => rfl, ?_, fun _ => hold (Or.inl h0), ?_, hsnap, by dsimp only; omega, hrle⟩
          · intro h
            have h' := hr h
            rw [hfree] at h'
            exact absurd h' (by simp)
          · intro h; exact absurd h (by dsimp only; omega)
        · rw [if_neg hfree]
          exact ⟨hs, hr, hold, hnew, hsnap, hsle, hrle⟩
      · rw [if_neg h0]
        by_cases h1 : sp = 1
        · rw [if_pos h1]
          refine ⟨fun _ => hs (Or.inl h1), ?_, ?_, ?_, hsnap, by dsimp only; omega, hrle⟩
          · intro h
            have h' := hr h
            have h'' := hs (Or.inl h1)
            rw [h'] at h''
            exact absurd h'' (by simp)
          · intro h; exact absurd h (by dsimp only; omega)
          · intro _; rw [hold (Or.inr h1)]
        · rw [if_neg h1]
          by_cases h2 : sp = 2
          · rw [if_pos h2]
            refine ⟨?_, ?_, ?_, fun _ => hnew (Or.inl h2), hsnap, by dsimp only; omega, hrle⟩
            · intro h; exact absurd h (by dsimp only; omega)
            · intro h
              have h' := hr h
              have h'' := hs (Or.inr h2)
              rw [h'] at h''
              exact absurd h'' (by simp)
            · intro h; exact absurd h (by dsimp only; omega)
          · rw [if_neg h2]
            exact ⟨hs, hr, hold, hnew, hsnap, hsle, hrle⟩
  | false =>
      dsimp only [sysStep]
      rw [if_neg (by simp)]
      by_cases h0 : rp = 0
      · rw [if_pos h0]
        by_cases hfree : lk = none
        · rw [if_pos hfree]
          refine ⟨?_, fun _ => rfl, hold, hnew, hsnap, hsle, by dsimp only; omega⟩
          · intro h
            have h' := hs h
            rw [hfree] at h'
            exact absurd h' (by simp)
        · rw [if_neg hfree]
          exact ⟨hs, hr, hold, hnew, hsnap, hsle, hrle⟩
      · rw [if_neg h0]
        by_cases h1 : rp = 1
        · rw [if_pos h1]
          have hlock := hr (Or.inl h1)
          have hns : ¬(sp = 1 ∨ sp = 2) := by
            intro h
            have h' := hs h
            rw [hlock] at h'
            exact absurd h' (by simp)
          have h03 : sp = 0 ∨ sp = 3 := by omega
          refine ⟨hs, ?_, hold, hnew, ?_, hsle, by dsimp only; omega⟩
          · intro _; exact hlock
          · rcases h03 with h | h
            · exact Or.inr (Or.inl (by rw [hold (Or.inl h)]))
            · exact Or.inr (Or.inr (by rw [hnew (Or.inr h)]))
        · rw [if_neg h1]
          by_cases h2 : rp = 2
          · rw [if_pos h2]
            refine ⟨?_, ?_, hold, hnew, hsnap, hsle, by dsimp only; omega⟩
            · intro h
              have h' := hs h
              have h'' := hr (Or.inr h2)
              rw [h'] at h''
              exact absurd h'' (by simp)
            · intro h; exact absurd h (by dsimp only; omega)
          · rw [if_neg h2]
            exact ⟨hs, hr, hold, hnew, hsnap, hsle, hrle⟩

lemma switchInv_run (token : String) (m0 : List (String × String))
    (schedule : List Bool) :
    ∀ s : SwitchSys, SwitchInv token m0 s →
      SwitchInv token m0 (sysRun token s schedule) := by
  induction schedule with
  | nil => intro s h; exact h
  | cons w rest ih =>
      intro s h
      exact ih (sysStep token s w) (switchInv_step token m0 s w h)

/-- C8: the identity switch is indivisible with respect to a concurrent
request's read of the shared header map. Under every interleaving of the
switching thread (acquire the lock, insert the `Authorization` entry
`"Bearer <token>"`, release) with a reading thread (acquire, clone the
map as `send_request` does, release), the snapshot the reader obtains —
if it got to take one — is either the complete old map or the complete
new map with the `Authorization` entry replaced in full; no partial or
mixed state is observable. -/
theorem c8_switch_atomic (token : String) (m0 : List (String × String))
    (schedule : List Bool) :
    (sysRun token (sysInit m0) schedule).snapshot = none
    ∨ (sysRun token (sysInit m0) schedule).snapshot = some m0
    ∨ (sysRun token (sysInit m0) schedule).snapshot
        = some (insertHeader m0 AUTHORIZATION ("Bearer " ++ token)) :=
  (switchInv_run token m0 schedule (sysInit m0) (switchInv_init token m0)).2.2.2.2.1

/-! ## log_request: the body excerpt (acquire.rs lines 394-401) -/

/-- The constant `MAX_CHARACTER` in `acquire.rs`. -/
def MAX_CHARACTER : Nat := 100

/-- The UTF-8 byte width of one character, as counted by Rust's
`str::len`. -/
def charUtf8Len (c : Char) : Nat :=
  if c.toNat < 0x80 then 1
  else if c.toNat < 0x800 then 2
  else if c.toNat < 0x10000 then 3
  else 4

/-- Model of `str::len`: the UTF-8 byte length of a body. -/
def bodyByteLen (chars : List Char) : Nat := (chars.map charUtf8Len).sum

/-- The character prefix whose UTF-8 encoding is exactly `n` bytes, when
`n` is a character boundary; `none` when it is not — where Rust's byte
slice `&s[..n]` panics. -/
def byteTake : List Char → Nat → Option (List Char)
  | _, 0 => some []
  | [], _ + 1 => none
  | c :: cs, n + 1 =>
      if charUtf8Len c ≤ n + 1 then
        (byteTake cs (n + 1 - charUtf8Len c)).map (c :: ·)
      else none

/-- The body excerpt `log_request` appends: the full body when its byte
length is at most `MAX_CHARACTER`, else the first `MAX_CHARACTER` bytes
followed by `"..."` — and `none`, modelling the panic of
`&response_text[..MAX_CHARACTER]`, when byte 100 falls inside a
multi-byte character. -/
def logExcerpt (body : String) : Option String :=
  if bodyByteLen body.toList ≤ MAX_CHARACTER then some body
  else
    match byteTake body.toList MAX_CHARACTER with
    | some pre => some (String.mk pre ++ "...")
    | none => none

/-- A valid UTF-8 body on which the excerpt slice panics: 99 ASCII
characters followed by one 3-byte character, so the body is 102 bytes
long and byte 100 is not a character boundary. -/
def c9Body : String := String.mk (List.replicate 99 'a' ++ ['中'])

set_option maxRecDepth 4000 in
/-- C9: the truncation is not total. The claim says the excerpt always
succeeds with a 100-character budget; the code compares and slices by
bytes, and on the valid UTF-8 body `c9Body` (102 bytes, byte 100 inside
the final character) the slice `&response_text[..100]` panics — the
model returns `none`. For contrast, a 100-byte ASCII body is logged in
full. -/
theorem c9_logExcerpt_panics :
    bodyByteLen c9Body.toList = 102
    ∧ logExcerpt c9Body = none
    ∧ logExcerpt (String.mk (List.replicate 100 'a'))
        = some (String.mk (List.replicate 100 'a')) := by
  refine ⟨by decide, by decide, by decide⟩

end Aumiao
